import Mathlib

/-!
Verification of the invenv environment cache and concurrency-control core.

Go strings and file contents are modelled as byte lists (`List Nat`, entries
below 256).  Pure computations (hashing, fingerprinting, base62 encoding) are
translated directly from `src/cmd/utils.go`.  Stateful operations
(`lockEnv`, `unlockEnv`, `waitUntilEnvIsUnlocked`, `Script.EnsureEnv`) are
translated as explicit state-passing functions; effects of external tools
(`python -m venv`, `pip`) are oracle parameters, while plain filesystem
primitives (stat, create, remove, write) are modelled as succeeding
deterministically.
-/

namespace Invenv

/-! ## SHA-1 over byte lists (crypto/sha1 as used by getFileHash) -/

/-- Reduce to a 32-bit word. -/
def w32 (x : Nat) : Nat := x % 4294967296

/-- Rotate a 32-bit word left by n bits. -/
def rotl32 (n x : Nat) : Nat := w32 ((x <<< n) ||| (x >>> (32 - n)))

/-- Bitwise complement of a 32-bit word. -/
def wnot (x : Nat) : Nat := 4294967295 ^^^ x

/-- Big-endian 4-byte rendering of a 32-bit word. -/
def beBytes4 (n : Nat) : List Nat :=
  [(n >>> 24) % 256, (n >>> 16) % 256, (n >>> 8) % 256, n % 256]

/-- Big-endian 8-byte rendering of the 64-bit message bit length. -/
def beBytes8 (n : Nat) : List Nat :=
  [(n >>> 56) % 256, (n >>> 48) % 256, (n >>> 40) % 256, (n >>> 32) % 256,
   (n >>> 24) % 256, (n >>> 16) % 256, (n >>> 8) % 256, n % 256]

/-- SHA-1 padding: append 0x80, zero bytes up to 56 mod 64, then the bit length. -/
def padMsg (msg : List Nat) : List Nat :=
  msg ++ (128 :: List.replicate ((120 - (msg.length + 1) % 64) % 64) 0)
      ++ beBytes8 (8 * msg.length)

/-- Pack bytes into big-endian 32-bit words, four bytes per word. -/
def toWords : List Nat → List Nat
  | a :: b :: c :: d :: rest =>
      (((a % 256) <<< 24) + ((b % 256) <<< 16) + ((c % 256) <<< 8) + (d % 256)) :: toWords rest
  | _ => []

/-- One message-schedule extension step: w[i] = rotl1 (w[i-3] xor w[i-8] xor w[i-14] xor w[i-16]). -/
def schedStep (w : List Nat) : List Nat :=
  w ++ [rotl32 1 ((w.getD (w.length - 3) 0) ^^^ (w.getD (w.length - 8) 0) ^^^
                  (w.getD (w.length - 14) 0) ^^^ (w.getD (w.length - 16) 0))]

/-- Extend the 16-word schedule by the given number of words. -/
def extendSched : Nat → List Nat → List Nat
  | 0, w => w
  | n + 1, w => extendSched n (schedStep w)

/-- The five-word SHA-1 state. -/
structure H5 where
  a : Nat
  b : Nat
  c : Nat
  d : Nat
  e : Nat
deriving DecidableEq

/-- Round function and constant for round t. -/
def fK (t b c d : Nat) : Nat × Nat :=
  if t < 20 then ((b &&& c) ||| ((wnot b) &&& d), 1518500249)
  else if t < 40 then (b ^^^ c ^^^ d, 1859775393)
  else if t < 60 then ((b &&& c) ||| (b &&& d) ||| (c &&& d), 2400959708)
  else (b ^^^ c ^^^ d, 3395469782)

/-- One SHA-1 compression round. -/
def roundOne (w : List Nat) (t : Nat) (s : H5) : H5 :=
  let fk := fK t s.b s.c s.d
  let temp := w32 (rotl32 5 s.a + fk.1 + s.e + fk.2 + w.getD t 0)
  ⟨temp, s.a, rotl32 30 s.b, s.c, s.d⟩

/-- Apply the remaining rounds; round index is 80 minus the remaining count. -/
def rounds (w : List Nat) : Nat → H5 → H5
  | 0, s => s
  | n + 1, s => rounds w n (roundOne w (80 - (n + 1)) s)

/-- Compress one 64-byte chunk into the running state. -/
def procChunk (h : H5) (chunk : List Nat) : H5 :=
  let w := extendSched 64 (toWords chunk)
  let s := rounds w 80 h
  ⟨w32 (h.a + s.a), w32 (h.b + s.b), w32 (h.c + s.c), w32 (h.d + s.d), w32 (h.e + s.e)⟩

/-- Split a padded message into 64-byte chunks (fuel equals the list length,
which always suffices because each step consumes at least one byte). -/
def chunksF : Nat → List Nat → List (List Nat)
  | 0, _ => []
  | _ + 1, [] => []
  | n + 1, x :: xs => ((x :: xs).take 64) :: chunksF n ((x :: xs).drop 64)

def chunks (l : List Nat) : List (List Nat) := chunksF l.length l

def sha1Init : H5 := ⟨1732584193, 4023233417, 2562383102, 271733878, 3285377520⟩

/-- SHA-1 digest of a byte list, as 20 bytes. -/
def sha1 (msg : List Nat) : List Nat :=
  let h := (chunks (padMsg msg)).foldl procChunk sha1Init
  beBytes4 h.a ++ beBytes4 h.b ++ beBytes4 h.c ++ beBytes4 h.d ++ beBytes4 h.e

/-- Lowercase hex digit, matching the x format verb of fmt.Sprintf. -/
def hexDigit (n : Nat) : Nat := if n < 10 then 48 + n else 87 + n

/-- Lowercase hex rendering of a byte list. -/
def toHex (bytes : List Nat) : List Nat :=
  bytes.foldr (fun b acc => hexDigit ((b >>> 4) % 16) :: hexDigit (b % 16) :: acc) []

/-- Embedding of getFileHash (src/cmd/utils.go lines 38-57): SHA-1 of the file
content, rendered as lowercase hex and truncated to the first 8 characters.
The file read is modelled by passing the content directly; the stat and read
error paths are outside the pure computation. -/
def getFileHash (content : List Nat) : List Nat := (toHex (sha1 content)).take 8

set_option maxRecDepth 100000 in
/-- SHA-1 test vector: the digest of "abc" starts with a9993e36. -/
theorem sha1_vector_abc : getFileHash [97, 98, 99] = [97, 57, 57, 57, 51, 101, 51, 54] := by
  decide

set_option maxRecDepth 1000000 in
/-- SHA-1 multi-chunk test vector: the digest of 100 repetitions of the byte
97 starts with 7f900025, exercising the two-chunk padding path. -/
theorem sha1_vector_a100 :
    getFileHash (List.replicate 100 97) = [55, 102, 57, 48, 48, 48, 50, 53] := by
  decide

/-! ## generateEnvID (src/cmd/utils.go lines 59-67) -/

/-- math/big SetBytes: interpret a byte list as a big-endian natural number. -/
def beNat (l : List Nat) : Nat := l.foldl (fun acc b => acc * 256 + b) 0

/-- The base62 alphabet of the encoder used by generateEnvID: digits,
then lowercase letters, then uppercase letters, as ASCII codes.  The claims
proved below depend only on these being 62 distinct alphanumeric codes. -/
def b62alph : List Nat :=
  [48, 49, 50, 51, 52, 53, 54, 55, 56, 57,
   97, 98, 99, 100, 101, 102, 103, 104, 105, 106, 107, 108, 109, 110, 111,
   112, 113, 114, 115, 116, 117, 118, 119, 120, 121, 122,
   65, 66, 67, 68, 69, 70, 71, 72, 73, 74, 75, 76, 77, 78, 79,
   80, 81, 82, 83, 84, 85, 86, 87, 88, 89, 90]

def alphGet (d : Nat) : Nat := b62alph.getD d 48

/-- Base-62 digit list of n, least significant first, via structural fuel
recursion so that concrete values evaluate in the kernel.  Proven below to
agree with Nat.digits 62. -/
def digitsB62F : Nat → Nat → List Nat
  | 0, _ => []
  | _ + 1, 0 => []
  | fuel + 1, n + 1 => ((n + 1) % 62) :: digitsB62F fuel ((n + 1) / 62)

def digitsB62 (n : Nat) : List Nat := digitsB62F n n

/-- Base62 encoding of a natural number, most significant digit first. -/
def encodeB62 (n : Nat) : List Nat := ((digitsB62 n).map alphGet).reverse

/-- Embedding of generateEnvID (src/cmd/utils.go lines 59-67): format the
requirements hash and the python version as hash_version, interpret the bytes
as a big integer, and encode it in base62. -/
def generateEnvID (requirementsHash pythonVersion : List Nat) : List Nat :=
  encodeB62 (beNat (requirementsHash ++ (95 :: pythonVersion)))

/-- The fingerprint of claim C7: generateEnvID applied over getFileHash of the
dependency file content, together with the interpreter version string. -/
def fingerprint (content version : List Nat) : List Nat :=
  generateEnvID (getFileHash content) version

/-! ### digitsB62 agrees with Nat.digits 62 -/

theorem digitsB62F_eq_digits : ∀ fuel n, n ≤ fuel → digitsB62F fuel n = Nat.digits 62 n := by
  intro fuel
  induction fuel with
  | zero =>
    intro n hn
    interval_cases n
    simp [digitsB62F]
  | succ f ih =>
    intro n hn
    cases n with
    | zero => simp [digitsB62F]
    | succ m =>
      rw [digitsB62F, Nat.digits_def' (by norm_num : (1:Nat) < 62) (Nat.succ_pos m)]
      congr 1
      apply ih
      have h1 : (m + 1) / 62 < m + 1 := Nat.div_lt_self (Nat.succ_pos m) (by norm_num)
      omega

theorem digitsB62_eq_digits (n : Nat) : digitsB62 n = Nat.digits 62 n :=
  digitsB62F_eq_digits n n le_rfl

/-! ### beNat as ofDigits of the reversed list -/

theorem beNat_foldl_aux (xs : List Nat) :
    ∀ acc, xs.foldl (fun a b => a * 256 + b) acc = acc * 256 ^ xs.length + beNat xs := by
  induction xs with
  | nil => intro acc; simp [beNat]
  | cons x xs ih =>
    intro acc
    simp only [List.foldl_cons, List.length_cons, beNat, Nat.zero_mul, Nat.zero_add]
    rw [ih (acc * 256 + x), ih x]
    ring

theorem beNat_cons (x : Nat) (xs : List Nat) :
    beNat (x :: xs) = x * 256 ^ xs.length + beNat xs := by
  have h := beNat_foldl_aux xs x
  simp only [beNat, List.foldl_cons, Nat.zero_mul, Nat.zero_add] at *
  exact h

theorem beNat_eq_ofDigits (l : List Nat) : beNat l = Nat.ofDigits 256 l.reverse := by
  induction l with
  | nil => simp [beNat, Nat.ofDigits]
  | cons x xs ih =>
    rw [beNat_cons, List.reverse_cons, Nat.ofDigits_append, ih, Nat.ofDigits_singleton]
    simp [Nat.add_comm, Nat.mul_comm]

/-- beNat is injective on byte lists whose first byte is nonzero. -/
theorem beNat_injOn (l1 l2 : List Nat) (hb1 : ∀ b ∈ l1, b < 256) (hb2 : ∀ b ∈ l2, b < 256)
    (hh1 : l1.head? ≠ some 0) (hh2 : l2.head? ≠ some 0)
    (heq : beNat l1 = beNat l2) : l1 = l2 := by
  have key : ∀ l : List Nat, (∀ b ∈ l, b < 256) → l.head? ≠ some 0 →
      Nat.digits 256 (Nat.ofDigits 256 l.reverse) = l.reverse := by
    intro l hb hh
    apply Nat.digits_ofDigits 256 (by norm_num)
    · intro d hd
      exact hb d (List.mem_reverse.mp hd)
    · intro hne
      rw [List.getLast_reverse]
      intro hzero
      apply hh
      rw [List.head_eq_iff_head?_eq_some] at hzero
      exact hzero
  rw [beNat_eq_ofDigits, beNat_eq_ofDigits] at heq
  have e1 := key l1 hb1 hh1
  have e2 := key l2 hb2 hh2
  rw [heq] at e1
  have : l1.reverse = l2.reverse := by rw [← e1, e2]
  exact List.reverse_injective this

/-! ### Injectivity of the base62 encoding and hex facts -/

theorem alphGet_injOn : ∀ d1, d1 < 62 → ∀ d2, d2 < 62 → alphGet d1 = alphGet d2 → d1 = d2 := by
  decide

theorem map_alphGet_injOn : ∀ l1 l2 : List Nat, (∀ x ∈ l1, x < 62) → (∀ x ∈ l2, x < 62) →
    l1.map alphGet = l2.map alphGet → l1 = l2 := by
  intro l1
  induction l1 with
  | nil =>
    intro l2 _ _ h
    cases l2 with
    | nil => rfl
    | cons y ys => simp at h
  | cons x xs ih =>
    intro l2 h1 h2 h
    cases l2 with
    | nil => simp at h
    | cons y ys =>
      simp only [List.map_cons, List.cons.injEq] at h
      have hx : x = y :=
        alphGet_injOn x (h1 x (List.mem_cons_self x xs)) y (h2 y (List.mem_cons_self y ys)) h.1
      have hxs : xs = ys :=
        ih ys (fun a ha => h1 a (List.mem_cons_of_mem _ ha))
          (fun a ha => h2 a (List.mem_cons_of_mem _ ha)) h.2
      rw [hx, hxs]

theorem encodeB62_inj (m n : Nat) (h : encodeB62 m = encodeB62 n) : m = n := by
  unfold encodeB62 at h
  have h1 := List.reverse_injective h
  have hd : Nat.digits 62 m = Nat.digits 62 n := by
    rw [digitsB62_eq_digits, digitsB62_eq_digits] at h1
    apply map_alphGet_injOn _ _ _ _ h1
    · intro x hx; exact Nat.digits_lt_base (by norm_num) hx
    · intro x hx; exact Nat.digits_lt_base (by norm_num) hx
  have h2 := congrArg (Nat.ofDigits 62) hd
  rwa [Nat.ofDigits_digits, Nat.ofDigits_digits] at h2

theorem hexDigit_range (n : Nat) (h : n < 16) :
    (48 ≤ hexDigit n ∧ hexDigit n ≤ 57) ∨ (97 ≤ hexDigit n ∧ hexDigit n ≤ 102) := by
  unfold hexDigit
  split <;> omega

theorem toHex_mem (l : List Nat) :
    ∀ c ∈ toHex l, (48 ≤ c ∧ c ≤ 57) ∨ (97 ≤ c ∧ c ≤ 102) := by
  induction l with
  | nil => simp [toHex]
  | cons b bs ih =>
    intro c hc
    have hstep : toHex (b :: bs) = hexDigit ((b >>> 4) % 16) :: hexDigit (b % 16) :: toHex bs := rfl
    rw [hstep] at hc
    simp only [List.mem_cons] at hc
    rcases hc with rfl | rfl | hc
    · exact hexDigit_range _ (Nat.mod_lt _ (by norm_num))
    · exact hexDigit_range _ (Nat.mod_lt _ (by norm_num))
    · exact ih c hc

theorem getFileHash_mem (content : List Nat) :
    ∀ c ∈ getFileHash content, (48 ≤ c ∧ c ≤ 57) ∨ (97 ≤ c ∧ c ≤ 102) := by
  intro c hc
  exact toHex_mem _ c (List.take_subset 8 _ hc)

theorem toHex_length (l : List Nat) : (toHex l).length = 2 * l.length := by
  induction l with
  | nil => simp [toHex]
  | cons b bs ih =>
    have hstep : toHex (b :: bs) = hexDigit ((b >>> 4) % 16) :: hexDigit (b % 16) :: toHex bs := rfl
    rw [hstep]
    simp only [List.length_cons, ih, List.length_cons]
    ring

theorem sha1_length (msg : List Nat) : (sha1 msg).length = 20 := by
  unfold sha1
  simp [beBytes4]

theorem getFileHash_length (content : List Nat) : (getFileHash content).length = 8 := by
  unfold getFileHash
  rw [List.length_take, toHex_length, sha1_length]
  decide

theorem beNat_append (l1 l2 : List Nat) :
    beNat (l1 ++ l2) = beNat l1 * 256 ^ l2.length + beNat l2 := by
  unfold beNat
  rw [List.foldl_append]
  exact beNat_foldl_aux l2 _

/-- Boolean test for the base62 alphabet: ASCII digits and letters. -/
def isB62 (c : Nat) : Bool :=
  decide ((48 ≤ c ∧ c ≤ 57) ∨ (65 ≤ c ∧ c ≤ 90) ∨ (97 ≤ c ∧ c ≤ 122))

/-- C10: for every input pair, generateEnvID returns a non-empty string of
base62 characters (letters and digits); in particular it contains no path
separator (47) and no dot (46), so the fingerprint names exactly one single
path component under the cache root. -/
theorem generateEnvID_nonempty_base62 :
    ∀ hsh v : List Nat, generateEnvID hsh v ≠ [] ∧
      (generateEnvID hsh v).all (fun c => isB62 c && (c != 47) && (c != 46)) = true := by
  intro hsh v
  have hpos : beNat (hsh ++ (95 :: v)) ≠ 0 := by
    rw [beNat_append, beNat_cons]
    have h95 : 0 < 95 * 256 ^ v.length := by positivity
    omega
  refine ⟨?_, ?_⟩
  · unfold generateEnvID encodeB62
    rw [digitsB62_eq_digits]
    simp only [ne_eq, List.reverse_eq_nil_iff, List.map_eq_nil_iff]
    exact Nat.digits_ne_nil_iff_ne_zero.mpr hpos
  · rw [List.all_eq_true]
    intro c hc
    unfold generateEnvID encodeB62 at hc
    rw [digitsB62_eq_digits, List.mem_reverse, List.mem_map] at hc
    obtain ⟨d, hd, rfl⟩ := hc
    have hlt : d < 62 := Nat.digits_lt_base (by norm_num) hd
    have key : ∀ d0, d0 < 62 →
        (isB62 (alphGet d0) && (alphGet d0 != 47) && (alphGet d0 != 46)) = true := by decide
    exact key d hlt

/-- C7 (amended): the fingerprint is a pure function of its two inputs, and two
fingerprints are equal exactly when the truncated content hashes are equal and
the interpreter version strings are byte-equal.  Byte-equal inputs therefore
always give equal fingerprints, but distinct contents whose truncated SHA-1
hashes collide give equal fingerprints as well (see the counterexample). -/
theorem fingerprint_eq_iff_hash_and_version_eq (c1 c2 v1 v2 : List Nat)
    (hv1 : ∀ b ∈ v1, b < 256) (hv2 : ∀ b ∈ v2, b < 256) :
    fingerprint c1 v1 = fingerprint c2 v2 ↔
      (getFileHash c1 = getFileHash c2 ∧ v1 = v2) := by
  constructor
  · intro h
    unfold fingerprint generateEnvID at h
    have hbe := encodeB62_inj _ _ h
    have hbounds : ∀ (c : List Nat) (v : List Nat), (∀ b ∈ v, b < 256) →
        ∀ b ∈ getFileHash c ++ (95 :: v), b < 256 := by
      intro c v hv b hb
      rcases List.mem_append.mp hb with hb | hb
      · rcases getFileHash_mem c b hb with ⟨_, h2⟩ | ⟨_, h2⟩ <;> omega
      · rcases List.mem_cons.mp hb with rfl | hb
        · omega
        · exact hv b hb
    have hhead : ∀ (c : List Nat) (v : List Nat), (getFileHash c ++ (95 :: v)).head? ≠ some 0 := by
      intro c v
      have hnn : getFileHash c ≠ [] := by
        intro hnil
        have hl := getFileHash_length c
        rw [hnil] at hl
        simp at hl
      obtain ⟨a, t, hat⟩ := List.exists_cons_of_ne_nil hnn
      have hmem : a ∈ getFileHash c := by
        rw [hat]
        exact List.mem_cons_self a t
      rw [hat]
      simp only [List.cons_append, List.head?_cons, ne_eq, Option.some.injEq]
      rcases getFileHash_mem c a hmem with ⟨h1, _⟩ | ⟨h1, _⟩ <;> omega
    have heqlists := beNat_injOn _ _ (hbounds c1 v1 hv1) (hbounds c2 v2 hv2)
      (hhead c1 v1) (hhead c2 v2) hbe
    have hlen : (getFileHash c1).length = (getFileHash c2).length := by
      rw [getFileHash_length, getFileHash_length]
    obtain ⟨hh, hv⟩ := List.append_inj heqlists hlen
    refine ⟨hh, ?_⟩
    injection hv
  · intro h
    unfold fingerprint
    rw [h.1, h.2]

/-- C7 witness: the equivalence applied at concrete single-byte inputs. -/
theorem fingerprint_eq_iff_hash_and_version_eq_w :
    fingerprint [97] [51] = fingerprint [98] [51] ↔
      (getFileHash [97] = getFileHash [98] ∧ ([51] : List Nat) = [51]) :=
  fingerprint_eq_iff_hash_and_version_eq [97] [98] [51] [51] (by decide) (by decide)

set_option maxRecDepth 1000000 in
/-- C7 counterexample: the byte strings 35097 and 40686 are distinct dependency
file contents whose SHA-1 digests share the first 8 hex characters c7b2880d, so
with the same interpreter version string 3.11.4 they produce the same
fingerprint even though the inputs are not byte-equal. -/
theorem fingerprint_collision :
    fingerprint [51, 53, 48, 57, 55] [51, 46, 49, 49, 46, 52] =
      fingerprint [52, 48, 54, 56, 54] [51, 46, 49, 49, 46, 52] ∧
    ([51, 53, 48, 57, 55] : List Nat) ≠ [52, 48, 54, 56, 54] :=
  ⟨by decide, by decide⟩

/-! ## Lock manager (src/cmd/utils.go lines 69-137)

The lock marker of an environment directory is a single sibling file; the
filesystem state relevant to one environment is therefore a single Bool
recording whether the marker exists.  lockEnv performs an os.Stat followed,
when the marker is absent, by os.MkdirAll and os.Create; os.Create uses
O_CREATE with O_TRUNC, so it succeeds whether or not the file exists. -/

/-- Embedding of lockEnv (src/cmd/utils.go lines 83-101) as a sequential
state transformer: result is (error, new lock state), where none models a nil
error.  An existing marker is returned as success with no modification. -/
def lockEnvStep (lockPresent : Bool) : Option Unit × Bool :=
  if lockPresent then (none, lockPresent) else (none, true)

/-- Embedding of unlockEnv (src/cmd/utils.go lines 103-113): os.Remove of the
marker; removal of an absent marker is not an error. -/
def unlockEnvStep (_lockPresent : Bool) : Option Unit × Bool :=
  (none, false)

/-! ### Two-process race on lockEnv (C1)

Each process runs lockEnv as two atomic filesystem operations: the os.Stat of
the marker, then (only when the stat reported absence) the os.Create.  A
schedule is a list of booleans, true meaning process A executes its next
operation, false process B.  Program counter 0 is before the stat, 1 is
between stat and the branch, 2 is returned; every completed run of lockEnv
returns nil (both branches of the source return nil when no I/O error
occurs). -/

structure RaceSt where
  fsLock : Bool
  pcA : Nat
  sawA : Bool
  createdA : Bool
  pcB : Nat
  sawB : Bool
  createdB : Bool
deriving DecidableEq

def raceInit : RaceSt :=
  { fsLock := false, pcA := 0, sawA := false, createdA := false,
    pcB := 0, sawB := false, createdB := false }

/-- One atomic step of the chosen process. -/
def stepProc (s : RaceSt) (isA : Bool) : RaceSt :=
  if isA then
    if s.pcA = 0 then { s with sawA := s.fsLock, pcA := 1 }
    else if s.pcA = 1 then
      if s.sawA then { s with pcA := 2 }
      else { s with fsLock := true, createdA := true, pcA := 2 }
    else s
  else
    if s.pcB = 0 then { s with sawB := s.fsLock, pcB := 1 }
    else if s.pcB = 1 then
      if s.sawB then { s with pcB := 2 }
      else { s with fsLock := true, createdB := true, pcB := 2 }
    else s

def runSched (s : RaceSt) (sched : List Bool) : RaceSt := sched.foldl stepProc s

/-! ## Process liveness probe (src/unnamed/part_004, findProcessWithPrefix) -/

/-- Boolean prefix test on byte lists (strings.HasPrefix). -/
def pfxOf : List Nat → List Nat → Bool
  | [], _ => true
  | _ :: _, [] => false
  | a :: xs, b :: ys => (a == b) && pfxOf xs ys

/-- Boolean substring test on byte lists (strings.Contains). -/
def subOf : List Nat → List Nat → Bool
  | s, [] => s.isEmpty
  | s, b :: ys => pfxOf s (b :: ys) || subOf s ys

/-- Embedding of findProcessWithPrefix (src/unnamed/part_004 lines 15-54).
The process table is the list of (pid, command line) pairs whose cmdline could
be read from /proc; the function returns the pid of some process whose command
line has the argument as a prefix, or none, which models ErrNoProcessFound. -/
def findProcessWithPfx (table : List (Nat × List Nat)) (pfx : List Nat) : Option Nat :=
  match table with
  | [] => none
  | e :: rest => if pfxOf pfx e.2 then some e.1 else findProcessWithPfx rest pfx

/-! ## The lock wait loop (src/cmd/utils.go lines 115-137)

waitUntilEnvIsUnlocked polls the lock marker once per second.  lockedAt i
tells whether the marker exists at poll i (the marker is shared with other
processes, so it varies over time), and procAliveAt i tells whether the
liveness probe at poll i finds some process whose command line starts with the
environment directory (true means found, so the probe does not return
ErrNoProcessFound; any other probe error is ignored by the source).
LockStaleTime is 15 minutes = 900 seconds; after the sleep of iteration i the
elapsed time is i + 1 seconds.  The loop is translated with the remaining
budget 900 - i as a structural fuel argument, which is exact: the stale check
fires precisely when the budget reaches zero. -/

inductive WRes
  | ok
  | staleLock
  | noProc
deriving DecidableEq

/-- LockAcquireAttempts (src/cmd/utils.go line 27) is declared in the source
but never referenced by the wait loop; the bound actually used is
LockStaleTime. -/
def lockAcquireAttempts : Nat := 300

def lockStaleSeconds : Nat := 900

/-- One run of the loop body starting at poll i with remaining budget k, where
i + k = 900 is the intended invariant.  Returns the result and the number of
one-second sleeps performed. -/
def waitAux (locked : Nat → Bool) (alive : Nat → Bool) (lin : Bool) (i : Nat) :
    Nat → WRes × Nat
  | 0 => if locked i then (WRes.staleLock, 1) else (WRes.ok, 0)
  | k + 1 =>
    if locked i then
      if lin && !(alive i) then (WRes.noProc, 1)
      else
        let r := waitAux locked alive lin (i + 1) k
        (r.1, r.2 + 1)
    else (WRes.ok, 0)

/-- Embedding of waitUntilEnvIsUnlocked: start at poll 0 with the full
staleness budget. -/
def waitUntilEnvIsUnlocked (locked : Nat → Bool) (alive : Nat → Bool) (lin : Bool) :
    WRes × Nat :=
  waitAux locked alive lin 0 lockStaleSeconds

/-! ## Script.EnsureEnv (src/cmd/script.go lines 403-487)

EnsureEnv is translated as a state-passing function.  The per-call inputs are
the flag deleteOldEnv and the Script fields fromInitCommand, venvID and
RequirementsPath (only its emptiness matters); the observable environment is
described by oracles: lockedAt and procAliveAt drive the wait loop, createOK
and installOK give the exit status of the external environment-creation tool
and of pip, and createLeavesDir tells whether a failed creation tool left the
directory behind.  Plain filesystem operations (stat, create and remove of
the marker, RemoveAll, WriteFile) succeed deterministically.  The output
records the returned error, the final existence of the environment directory,
the final content of the .venv.version info file, the final existence of the
lock marker, and counters for the observable actions. -/

inductive EErr
  | createFailed
  | installFailed
deriving DecidableEq

structure Cfg where
  deleteOldEnv : Bool
  fromInit : Bool
  venvID : List Nat
  hasReq : Bool
  isLinux : Bool
  lockedAt : Nat → Bool
  procAliveAt : Nat → Bool
  createOK : Bool
  createLeavesDir : Bool
  installOK : Bool

structure Out where
  err : Option EErr
  envDirExists : Bool
  infoContent : Option (List Nat)
  lockExists : Bool
  sleeps : Nat
  lockAcquired : Bool
  venvInvocations : Nat
  pipInvocations : Nat
deriving DecidableEq

/-- The readOperationOnly and deleteOldEnv flags as computed by EnsureEnv
before the wait (src/cmd/script.go lines 404-434): readOperationOnly starts as
the negation of deleteOldEnv, is cleared when the environment directory does
not exist, and for init-created scripts is also cleared when the info file is
missing or holds a different environment ID (the latter also forces
deleteOldEnv). -/
def roFlags (cfg : Cfg) (dirExists : Bool) (info : Option (List Nat)) : Bool × Bool :=
  let ro1 := !cfg.deleteOldEnv && dirExists
  if cfg.fromInit && ro1 then
    match info with
    | none => (false, cfg.deleteOldEnv)
    | some data => if data = cfg.venvID then (ro1, cfg.deleteOldEnv) else (false, true)
  else (ro1, cfg.deleteOldEnv)

/-- Embedding of the current Script.InstallRequirementsInEnv
(src/cmd/script.go lines 531-552): immediate success without invoking pip when
no requirements file is designated, otherwise exactly one pip invocation whose
exit status decides the result.  The function consults no stored hash. -/
def installRequirementsInEnv (hasReq installOK : Bool) : Option EErr × Nat :=
  if !hasReq then (none, 0)
  else if installOK then (none, 1) else (some EErr.installFailed, 1)

/-- The locked section of EnsureEnv (src/cmd/script.go lines 453-485): lockEnv
(its error is ignored by the source), a deferred unlockEnv that runs on every
return, optional RemoveEnv, CreateEnv, InstallRequirementsInEnv with removal
of the directory on failure, and for init-created scripts the write of the
info file. -/
def mutate (cfg : Cfg) (dirExists : Bool) (info : Option (List Nat)) (del : Bool)
    (sleeps : Nat) : Out :=
  let dir1 := if del then false else dirExists
  let info1 := if del then none else info
  if cfg.createOK = false then
    { err := some EErr.createFailed,
      envDirExists := dir1 || cfg.createLeavesDir,
      infoContent := if dir1 || cfg.createLeavesDir then info1 else none,
      lockExists := false,
      sleeps := sleeps,
      lockAcquired := true,
      venvInvocations := 1,
      pipInvocations := 0 }
  else
    match installRequirementsInEnv cfg.hasReq cfg.installOK with
    | (some e, n) =>
      { err := some e, envDirExists := false, infoContent := none, lockExists := false,
        sleeps := sleeps, lockAcquired := true, venvInvocations := 1, pipInvocations := n }
    | (none, n) =>
      { err := none,
        envDirExists := true,
        infoContent := if cfg.fromInit then some cfg.venvID else info1,
        lockExists := false,
        sleeps := sleeps,
        lockAcquired := true,
        venvInvocations := 1,
        pipInvocations := n }

/-- Embedding of Script.EnsureEnv (src/cmd/script.go lines 403-487).  The
wait loop runs unconditionally; a stale-lockfile or no-process result clears
readOperationOnly and forces deleteOldEnv (the default error branch of the
source switch is unreachable because the wait loop only produces these three
results).  When readOperationOnly survives, the call returns nil having done
nothing but the wait. -/
def ensureEnv (cfg : Cfg) (dirExists : Bool) (info : Option (List Nat)) : Out :=
  let p := roFlags cfg dirExists info
  let w := waitUntilEnvIsUnlocked cfg.lockedAt cfg.procAliveAt cfg.isLinux
  let q := match w.1 with
    | WRes.ok => p
    | _ => (false, true)
  if q.1 then
    { err := none, envDirExists := dirExists, infoContent := info, lockExists := false,
      sleeps := w.2, lockAcquired := false, venvInvocations := 0, pipInvocations := 0 }
  else
    mutate cfg dirExists info q.2 w.2

/-! ## Helper lemmas about the wait loop and the locked section -/

theorem waitAux_sleeps_le (locked alive : Nat → Bool) (lin : Bool) :
    ∀ k i, (waitAux locked alive lin i k).2 ≤ k + 1 := by
  intro k
  induction k with
  | zero =>
    intro i
    unfold waitAux
    split <;> simp
  | succ n ih =>
    intro i
    unfold waitAux
    split
    · split
      · simp
      · simpa using Nat.add_le_add_right (ih (i + 1)) 1
    · simp

theorem waitAux_always_locked (locked alive : Nat → Bool) (lin : Bool)
    (hl : ∀ j, locked j = true) (ha : ∀ j, alive j = true) :
    ∀ k i, waitAux locked alive lin i k = (WRes.staleLock, k + 1) := by
  intro k
  induction k with
  | zero =>
    intro i
    unfold waitAux
    simp [hl i]
  | succ n ih =>
    intro i
    unfold waitAux
    simp [hl i, ha i, ih (i + 1)]

theorem waitAux_unlocked (locked alive : Nat → Bool) (lin : Bool) (i k : Nat)
    (h : locked i = false) : waitAux locked alive lin i k = (WRes.ok, 0) := by
  cases k <;> · unfold waitAux; simp [h]

/-- Every run of EnsureEnv either never acquires the lock, or is a run of the
locked section. -/
theorem ensureEnv_shape (cfg : Cfg) (d : Bool) (i : Option (List Nat)) :
    (ensureEnv cfg d i).lockAcquired = false ∨
    ∃ del s, ensureEnv cfg d i = mutate cfg d i del s := by
  simp only [ensureEnv]
  split
  · left; rfl
  · right; exact ⟨_, _, rfl⟩

theorem mutate_lockExists_false (cfg : Cfg) (d : Bool) (i : Option (List Nat))
    (del : Bool) (s : Nat) : (mutate cfg d i del s).lockExists = false := by
  rcases cfg with ⟨del0, init0, vid, hreq, lin, la, pa, cok, cld, iok⟩
  cases del <;> cases cok <;> cases hreq <;> cases iok <;> cases init0 <;> rfl

theorem mutate_installFail (cfg : Cfg) (d : Bool) (i : Option (List Nat)) (del : Bool) (s : Nat)
    (hc : cfg.createOK = true) (hr : cfg.hasReq = true) (hi : cfg.installOK = false) :
    (mutate cfg d i del s).err = some EErr.installFailed ∧
    (mutate cfg d i del s).envDirExists = false ∧
    (mutate cfg d i del s).lockExists = false := by
  unfold mutate installRequirementsInEnv
  rw [hc, hr, hi]
  simp

theorem mutate_success (cfg : Cfg) (d : Bool) (i : Option (List Nat)) (del : Bool) (s : Nat)
    (hc : cfg.createOK = true) (hi : cfg.installOK = true) :
    (mutate cfg d i del s).err = none := by
  unfold mutate installRequirementsInEnv
  rw [hc, hi]
  cases cfg.hasReq <;> simp

/-- The read-only fast path of EnsureEnv: existing directory, no forced
rebuild, not init-created, no lock marker at the first poll. -/
theorem ensureEnv_read_only (cfg : Cfg) (info : Option (List Nat))
    (hdel : cfg.deleteOldEnv = false) (hinit : cfg.fromInit = false)
    (hlock : cfg.lockedAt 0 = false) :
    ensureEnv cfg true info =
      { err := none, envDirExists := true, infoContent := info, lockExists := false,
        sleeps := 0, lockAcquired := false, venvInvocations := 0, pipInvocations := 0 } := by
  have hw : waitUntilEnvIsUnlocked cfg.lockedAt cfg.procAliveAt cfg.isLinux = (WRes.ok, 0) := by
    unfold waitUntilEnvIsUnlocked
    exact waitAux_unlocked _ _ _ 0 lockStaleSeconds hlock
  simp only [ensureEnv, hw, roFlags, hdel, hinit]
  simp

/-! ## Example configurations used in closed theorems -/

/-- Two callers, same fingerprint, free lock, all tools succeed, requirements
file designated. -/
def cfgFree : Cfg :=
  { deleteOldEnv := false, fromInit := false, venvID := [], hasReq := true,
    isLinux := true, lockedAt := fun _ => false, procAliveAt := fun _ => true,
    createOK := true, createLeavesDir := false, installOK := true }

/-- Lock held at the first poll only, by a live process. -/
def cfgBriefLock : Cfg :=
  { deleteOldEnv := false, fromInit := false, venvID := [], hasReq := true,
    isLinux := true, lockedAt := fun i => i == 0, procAliveAt := fun _ => true,
    createOK := true, createLeavesDir := false, installOK := true }

/-- Lock held by a live process for the whole staleness budget. -/
def cfgHeldLock : Cfg :=
  { deleteOldEnv := false, fromInit := false, venvID := [], hasReq := true,
    isLinux := true, lockedAt := fun _ => true, procAliveAt := fun _ => true,
    createOK := true, createLeavesDir := false, installOK := true }

/-- Environment creation fails and the half-created directory is left behind
by the external tool. -/
def cfgCreateFail : Cfg :=
  { deleteOldEnv := false, fromInit := false, venvID := [], hasReq := true,
    isLinux := true, lockedAt := fun _ => false, procAliveAt := fun _ => true,
    createOK := false, createLeavesDir := true, installOK := true }

/-- Creation succeeds, pip fails. -/
def cfgInstallFail : Cfg :=
  { deleteOldEnv := false, fromInit := false, venvID := [], hasReq := true,
    isLinux := true, lockedAt := fun _ => false, procAliveAt := fun _ => true,
    createOK := true, createLeavesDir := false, installOK := false }

/-- Forced rebuild of an existing environment, all tools succeed. -/
def cfgForced : Cfg :=
  { deleteOldEnv := true, fromInit := false, venvID := [], hasReq := true,
    isLinux := true, lockedAt := fun _ => false, procAliveAt := fun _ => true,
    createOK := true, createLeavesDir := false, installOK := true }

/-! ## Claim theorems -/

/-- C1 counterexample: under the schedule stat-A, stat-B, create-A, create-B
both racing processes pass the existence check and both execute os.Create
successfully (os.Create truncates instead of failing on an existing file), so
both create the lock marker, refuting that at most one of two racing processes
succeeds in creating it. -/
theorem lockEnv_race_both_create :
    (runSched raceInit [true, false, true, false]).createdA = true ∧
    (runSched raceInit [true, false, true, false]).createdB = true :=
  ⟨by decide, by decide⟩

/-- C1 (amended): lockEnv provides no mutual exclusion: there is an
interleaving of two processes running lockEnv on the same environment
directory in which both execute the create step and both run to completion,
and lockEnv reports nil to both (an existing marker is itself treated as
success, and EnsureEnv moreover ignores the lockEnv return value), so more
than one concurrent caller can enter the build and install sequence. -/
theorem lockEnv_race_schedule_both_acquire :
    ∃ sched : List Bool,
      (runSched raceInit sched).createdA = true ∧
      (runSched raceInit sched).createdB = true ∧
      (runSched raceInit sched).pcA = 2 ∧ (runSched raceInit sched).pcB = 2 :=
  ⟨[true, false, true, false], by decide⟩

/-- C2 counterexample: when environment creation fails and the external tool
leaves the directory behind, EnsureEnv returns the creation error without
removing the environment directory, which still exists on return. -/
theorem ensureEnv_createFail_leaves_dir :
    (ensureEnv cfgCreateFail false none).err = some EErr.createFailed ∧
    (ensureEnv cfgCreateFail false none).envDirExists = true :=
  ⟨by decide, by decide⟩

/-- C2 (amended): only dependency-installation failure triggers cleanup: when
the locked section is entered with a designated requirements file and pip
fails, the environment directory is removed before the deferred unlock
releases the lock marker, so the directory does not exist when EnsureEnv
returns that error; on environment-creation failure the source returns
without removing the directory (see the counterexample). -/
theorem ensureEnv_installFail_removes_dir (cfg : Cfg) (d : Bool) (info : Option (List Nat))
    (hc : cfg.createOK = true) (hr : cfg.hasReq = true) (hi : cfg.installOK = false)
    (hm : (ensureEnv cfg d info).lockAcquired = true) :
    (ensureEnv cfg d info).err = some EErr.installFailed ∧
    (ensureEnv cfg d info).envDirExists = false ∧
    (ensureEnv cfg d info).lockExists = false := by
  rcases ensureEnv_shape cfg d info with hsh | ⟨del, s, hsh⟩
  · rw [hm] at hsh
    cases hsh
  · rw [hsh]
    exact mutate_installFail cfg d info del s hc hr hi

/-- C2 witness: the amended claim at a concrete failing installation. -/
theorem ensureEnv_installFail_removes_dir_w :
    (ensureEnv cfgInstallFail false none).err = some EErr.installFailed ∧
    (ensureEnv cfgInstallFail false none).envDirExists = false ∧
    (ensureEnv cfgInstallFail false none).lockExists = false :=
  ensureEnv_installFail_removes_dir cfgInstallFail false none rfl rfl rfl (by decide)

/-- C3 counterexample: the environment directory exists and forceRebuild is
false, yet because another process holds the lock marker at the moment of the
call, EnsureEnv sleeps inside the wait loop (once here) before returning on
the read-only path: read-only consumers of a valid environment can block. -/
theorem ensureEnv_read_path_sleeps :
    (ensureEnv cfgBriefLock true none).err = none ∧
    (ensureEnv cfgBriefLock true none).lockAcquired = false ∧
    (ensureEnv cfgBriefLock true none).sleeps = 1 :=
  ⟨by decide, by decide, by decide⟩

/-- C3 (amended): when the environment directory exists, forceRebuild is
false, the script is not init-created and no lock marker is present at the
first poll, EnsureEnv returns nil at once without acquiring the lock, without
any sleep and without any tool invocation, leaving the state unchanged; when
a lock marker is present the call first waits for it to clear. -/
theorem ensureEnv_unlocked_read_fast_path (cfg : Cfg) (info : Option (List Nat))
    (hdel : cfg.deleteOldEnv = false) (hinit : cfg.fromInit = false)
    (hlock : cfg.lockedAt 0 = false) :
    ensureEnv cfg true info =
      { err := none, envDirExists := true, infoContent := info, lockExists := false,
        sleeps := 0, lockAcquired := false, venvInvocations := 0, pipInvocations := 0 } :=
  ensureEnv_read_only cfg info hdel hinit hlock

/-- C3 witness: the fast path at a concrete lock-free configuration. -/
theorem ensureEnv_unlocked_read_fast_path_w :
    ensureEnv cfgFree true none =
      { err := none, envDirExists := true, infoContent := none, lockExists := false,
        sleeps := 0, lockAcquired := false, venvInvocations := 0, pipInvocations := 0 } :=
  ensureEnv_unlocked_read_fast_path cfgFree none rfl rfl rfl

set_option maxRecDepth 100000 in
/-- C4 counterexample: with the lock held by a live process for the whole
staleness budget the wait loop gives up with the stale-lockfile result, yet no
fatal could-not-acquire error is surfaced to the caller: EnsureEnv treats the
result as authorization to take over, rebuilds, and returns nil. -/
theorem wait_timeout_not_fatal :
    (waitUntilEnvIsUnlocked cfgHeldLock.lockedAt cfgHeldLock.procAliveAt
        cfgHeldLock.isLinux).1 = WRes.staleLock ∧
    (ensureEnv cfgHeldLock true none).err = none ∧
    (ensureEnv cfgHeldLock true none).lockAcquired = true :=
  ⟨by decide, by decide, by decide⟩

/-- C4 (amended): the wait loop polls once per second and always returns
within the staleness budget, after at most 901 sleeps; when the lock is held
by a live process for the whole budget it returns the stale-lockfile error
(not a could-not-acquire error), and EnsureEnv then recovers by taking over
the lock and rebuilding, returning nil when the tools succeed, rather than
surfacing a fatal error. -/
theorem wait_bounded_and_stale_recovery (locked alive : Nat → Bool) (lin : Bool)
    (cfg : Cfg) (d : Bool) (info : Option (List Nat))
    (hl : ∀ j, cfg.lockedAt j = true) (ha : ∀ j, cfg.procAliveAt j = true)
    (hc : cfg.createOK = true) (hi : cfg.installOK = true) :
    (waitUntilEnvIsUnlocked locked alive lin).2 ≤ lockStaleSeconds + 1 ∧
    (waitUntilEnvIsUnlocked cfg.lockedAt cfg.procAliveAt cfg.isLinux).1 = WRes.staleLock ∧
    (ensureEnv cfg d info).err = none := by
  refine ⟨?_, ?_, ?_⟩
  · exact waitAux_sleeps_le locked alive lin lockStaleSeconds 0
  · unfold waitUntilEnvIsUnlocked
    rw [waitAux_always_locked _ _ _ hl ha lockStaleSeconds 0]
  · have hw := waitAux_always_locked cfg.lockedAt cfg.procAliveAt cfg.isLinux hl ha
      lockStaleSeconds 0
    simp only [ensureEnv, waitUntilEnvIsUnlocked, hw]
    exact mutate_success cfg true info true (lockStaleSeconds + 1) hc hi

/-- C4 witness: the amended claim at the concrete held-lock configuration. -/
theorem wait_bounded_and_stale_recovery_w :
    (waitUntilEnvIsUnlocked (fun _ => true) (fun _ => true) true).2 ≤ lockStaleSeconds + 1 ∧
    (waitUntilEnvIsUnlocked cfgHeldLock.lockedAt cfgHeldLock.procAliveAt
        cfgHeldLock.isLinux).1 = WRes.staleLock ∧
    (ensureEnv cfgHeldLock true none).err = none :=
  wait_bounded_and_stale_recovery (fun _ => true) (fun _ => true) true cfgHeldLock true none
    (fun _ => rfl) (fun _ => rfl) rfl rfl

/-- C5 counterexample: a forced rebuild of an existing environment whose
requirements file is unchanged since the previous successful install (its
current hash equals any previously recorded value) still performs one pip
invocation, and the standalone installation operation invokes pip whenever a
requirements file is designated: the current InstallRequirementsInEnv consults
no stored hash, so the claimed skip does not happen in that operation. -/
theorem install_runs_pip_despite_unchanged_hash :
    (ensureEnv cfgForced true none).pipInvocations = 1 ∧
    (installRequirementsInEnv true true).2 = 1 :=
  ⟨by decide, by decide⟩

/-- C5 (amended): the dependency-installation operation performs exactly one
pip invocation whenever a requirements file is designated, regardless of any
previously installed state, and none when no file is designated; redundant
installs are instead avoided a level up: an unchanged dependency file yields
the same fingerprint, and EnsureEnv on an existing unlocked environment takes
the read-only path with zero pip invocations. -/
theorem install_pip_count_spec (cfg : Cfg) (info : Option (List Nat)) (ok : Bool)
    (hdel : cfg.deleteOldEnv = false) (hinit : cfg.fromInit = false)
    (hlock : cfg.lockedAt 0 = false) :
    (installRequirementsInEnv true ok).2 = 1 ∧
    (installRequirementsInEnv false ok).2 = 0 ∧
    (ensureEnv cfg true info).pipInvocations = 0 := by
  refine ⟨?_, rfl, ?_⟩
  · cases ok <;> rfl
  · rw [ensureEnv_read_only cfg info hdel hinit hlock]

/-- C5 witness: the amended claim at the concrete lock-free configuration. -/
theorem install_pip_count_spec_w :
    (installRequirementsInEnv true true).2 = 1 ∧
    (installRequirementsInEnv false true).2 = 0 ∧
    (ensureEnv cfgFree true none).pipInvocations = 0 :=
  install_pip_count_spec cfgFree none true rfl rfl rfl

/-- C6: on every return path of EnsureEnv that entered the locked section, the
deferred unlockEnv removes the lock marker before EnsureEnv returns: the lock
is never left held, on success as well as on the build and install failure
paths. -/
theorem ensureEnv_releases_lock (cfg : Cfg) (d : Bool) (info : Option (List Nat))
    (hm : (ensureEnv cfg d info).lockAcquired = true) :
    (ensureEnv cfg d info).lockExists = false := by
  rcases ensureEnv_shape cfg d info with hsh | ⟨del, s, hsh⟩
  · rw [hm] at hsh
    cases hsh
  · rw [hsh]
    exact mutate_lockExists_false cfg d info del s

/-- C6 witness: the lock is released after a concrete forced rebuild. -/
theorem ensureEnv_releases_lock_w : (ensureEnv cfgForced true none).lockExists = false :=
  ensureEnv_releases_lock cfgForced true none (by decide)

/-- C8 counterexample: a running process whose command line contains the
environment directory path strictly inside (here after another word) is not
reported: the probe uses a prefix test, not the substring containment stated
by the claim. -/
theorem findProcess_substring_missed :
    subOf [47, 101] [120, 32, 47, 101] = true ∧
    findProcessWithPfx [(5, [120, 32, 47, 101])] [47, 101] = none :=
  ⟨by decide, by decide⟩

/-- C8 (amended): the probe reports a live process exactly when some running
process command line has the environment directory path as a prefix; a lock is
presumed abandoned exactly when no command line starts with that path. -/
theorem findProcess_iff_prefix_found :
    ∀ (table : List (Nat × List Nat)) (p : List Nat),
      (findProcessWithPfx table p).isSome = table.any (fun e => pfxOf p e.2) := by
  intro table p
  induction table with
  | nil => rfl
  | cons e rest ih =>
    unfold findProcessWithPfx
    rw [List.any_cons]
    cases h : pfxOf p e.2 <;> simp [h, ih]

/-- C9: when the lock marker already exists, lockEnv returns nil and modifies
nothing: an existing lock is treated as a successful acquisition for the
caller, not as a failed acquire. -/
theorem lockEnv_existing_returns_nil (b : Bool) (h : b = true) :
    lockEnvStep b = (none, b) := by
  rw [h]
  rfl

/-- C9 witness: the claim at the concrete locked state. -/
theorem lockEnv_existing_returns_nil_w : lockEnvStep true = (none, true) :=
  lockEnv_existing_returns_nil true rfl

end Invenv
